import Mathlib

/-!
Shallow embedding of the image-upload edge function
(src/supabase/functions/upload-image/index.ts) and proofs about it.

The handler is modelled as a pure function from an environment (the
external collaborators: session validator, public-URL resolver, clock,
and fault injectors for the storage write and the row updates), a
database state (the `communities` and `businesses` tables and the
object store), and a request, to a result consisting of the HTTP
response, the new database state, and a trace of the remote write
calls the handler issued.
-/

namespace UploadImage

/-- Bytes and metadata of an uploaded file (the `File` form value). The
field `type` is the declared MIME content type (`file.type` in the
source); `content` models the bytes obtained via `file.arrayBuffer()`. -/
structure FileData where
  name : String
  size : Nat
  type : String
  content : List Nat
deriving DecidableEq

/-- A multipart form value: `formData.get` returns either a string or a
file. The handler casts without checking, so a string in the `file`
slot flows on as a value whose `size` and `type` are `undefined`. -/
inductive FormValue where
  | str : String → FormValue
  | file : FileData → FormValue
deriving DecidableEq

/-- View of a form value as a `File`, mirroring the unchecked
`formData.get("file") as File` cast. A string value has `undefined`
size and type in JavaScript: `undefined > n` is `false` (modelled as
size 0) and `undefined` is never an allowed MIME type (modelled as the
empty type string, which is not in `allowedTypes`). The `name` slot is
never reached for a string value because the type check rejects it
first. -/
def FormValue.asFile : FormValue → FileData
  | .file f => f
  | .str s => ⟨s, 0, "", []⟩

/-- JavaScript truthiness of `formData.get(...)` for the `file` field:
`null` and the empty string are falsy, every `File` object is truthy. -/
def formTruthy : Option FormValue → Bool
  | none => false
  | some (.str s) => !(s == "")
  | some (.file _) => true

/-- JavaScript truthiness of a string-typed form field: `null` and the
empty string are falsy. -/
def strTruthy : Option String → Bool
  | none => false
  | some s => !(s == "")

/-- A row of the `communities` table, restricted to the columns the
endpoint touches. -/
structure CommunityRow where
  created_by : String
  cover_image_url : Option String
  logo_url : Option String
  updated_at : String
deriving DecidableEq

/-- A row of the `businesses` table, restricted to the columns the
endpoint touches. -/
structure BusinessRow where
  owner_id : String
  cover_image_url : Option String
  logo_url : Option String
  updated_at : String
deriving DecidableEq

/-- An object held by the object store: the uploaded bytes and the
content type passed to `storage.upload`. -/
structure StoredObject where
  content : List Nat
  contentType : String
deriving DecidableEq

/-- The mutable external state the handler reads and writes: the two
entity tables (id to row; `none` covers both a missing row and a
`.single()` lookup error) and the object store (bucket and path to
object). -/
structure DB where
  communities : String → Option CommunityRow
  businesses : String → Option BusinessRow
  storage : String → String → Option StoredObject

/-- The external collaborators and fault injectors: `validateSession`
models the `validate_session` RPC (`none` covers both an RPC error and
a null user id), `publicUrl` models `getPublicUrl` on a bucket and
path, `now` models `new Date().toISOString()`, and the three error
fields inject the `uploadError` and `updateError` outcomes of the
remote write calls (`some msg` means the call fails with that
message). -/
structure Env where
  validateSession : String → Option String
  publicUrl : String → String → String
  now : String
  uploadError : Option String
  communitiesUpdateError : Option String
  businessesUpdateError : Option String

/-- An incoming request: HTTP method, the `x-session-token` header
(`none` when absent), and the four multipart form fields (`none` when
absent). -/
structure UploadRequest where
  method : String
  sessionToken : Option String
  file : Option FormValue
  bucketType : Option String
  entityId : Option String
  imageType : Option String

/-- Body of a JSON response: an error object, a success object carrying
the image URL, or the bare `ok` text of the preflight answer. -/
inductive Body where
  | errorMsg : String → Body
  | success : String → Body
  | ok : Body
deriving DecidableEq

/-- An HTTP response: status code and body. -/
structure HttpResponse where
  status : Nat
  body : Body
deriving DecidableEq

/-- A remote write call issued by the handler: a `storage.upload` call
(bucket, path, object) or a table `update` call (table, row id). -/
inductive Event where
  | storageWrite : String → String → StoredObject → Event
  | rowUpdate : String → String → Event
deriving DecidableEq

/-- Result of one invocation: the response, the database state after
the call, and the trace of remote write calls issued (in order). -/
structure HandlerResult where
  resp : HttpResponse
  db : DB
  events : List Event

def noSessionMsg : String := "No session token provided"
def invalidSessionMsg : String := "Invalid or expired session"
def missingFieldsMsg : String := "File, bucket_type, entity_id, and image_type are required"
def invalidBucketMsg : String := "Invalid bucket type"
def fileSizeMsg : String := "File must be less than 5MB"
def fileTypeMsg : String := "Only JPEG, PNG, GIF, and WebP images are allowed"
def notAuthCommunityMsg : String := "Not authorized to upload images for this community"
def notAuthBusinessMsg : String := "Not authorized to upload images for this business"

def validBuckets : List String := ["communities", "businesses"]

def allowedTypes : List String := ["image/jpeg", "image/png", "image/gif", "image/webp"]

/-- JavaScript `split` with the one-character separator `"."`, on the
character list of the string: splitting the empty string gives one
empty segment, every dot starts a new segment. Defined structurally so
that it evaluates inside the kernel. -/
def splitDot : List Char → List (List Char)
  | [] => [[]]
  | c :: cs =>
    let r := splitDot cs
    if c = '.' then [] :: r
    else (c :: r.headD []) :: r.tail

/-- Suffix test on strings by their character lists, used to state
what a storage path ends with. -/
def strEndsWith (s suffix : String) : Bool :=
  suffix.data.isSuffixOf s.data

/-- Extension derivation, `file.name.split(".").pop() || "jpg"`. In
JavaScript, `split` of any string on `"."` yields a non-empty array,
so `pop()` returns its last element; `|| "jpg"` replaces it only when
it is the empty string (name empty or ending in a dot). A dotless name
is returned whole. -/
def fileExt (name : String) : String :=
  match (splitDot name.data).getLastD [] with
  | [] => "jpg"
  | e => ⟨e⟩

/-- Storage path, `${entityId}/${imageType}.${fileExt}`. -/
def filePathOf (entityId imageType name : String) : String :=
  entityId ++ "/" ++ imageType ++ "." ++ fileExt name

/-- Column update applied to a community row: the dynamic
`[updateField]: url` assignment plus the `updated_at` refresh. The
handler only ever produces the field names `cover_image_url` and
`logo_url`. -/
def updateCommunityRow (updateField url now : String) (r : CommunityRow) : CommunityRow :=
  if updateField = "cover_image_url" then
    { r with cover_image_url := some url, updated_at := now }
  else
    { r with logo_url := some url, updated_at := now }

/-- Column update applied to a business row, same shape as for a
community row. -/
def updateBusinessRow (updateField url now : String) (r : BusinessRow) : BusinessRow :=
  if updateField = "cover_image_url" then
    { r with cover_image_url := some url, updated_at := now }
  else
    { r with logo_url := some url, updated_at := now }

/-- Lines 107-173 of the source: path derivation, storage upload,
public-URL resolution, and the row update. Reached only after all
validation and the ownership section. A failed upload or update leaves
the corresponding state unchanged; the `update ... eq("id", ...)` call
maps over the optional row and is not an error when the row is
missing. -/
def doUpload (env : Env) (db : DB) (file : FileData)
    (bucketType entityId imageType : String) : HandlerResult :=
  let fileName := filePathOf entityId imageType file.name
  let obj : StoredObject := ⟨file.content, file.type⟩
  match env.uploadError with
  | some msg => ⟨⟨500, .errorMsg msg⟩, db, [.storageWrite bucketType fileName obj]⟩
  | none =>
    let db1 : DB :=
      { db with storage := fun b p =>
          if b = bucketType ∧ p = fileName then some obj else db.storage b p }
    let publicUrl := env.publicUrl bucketType fileName
    let updateField := if imageType = "cover" then "cover_image_url" else "logo_url"
    if bucketType = "communities" then
      match env.communitiesUpdateError with
      | some msg =>
          ⟨⟨500, .errorMsg msg⟩, db1,
            [.storageWrite bucketType fileName obj, .rowUpdate "communities" entityId]⟩
      | none =>
          ⟨⟨200, .success publicUrl⟩,
            { db1 with communities := fun id =>
                if id = entityId then
                  (db1.communities id).map (updateCommunityRow updateField publicUrl env.now)
                else db1.communities id },
            [.storageWrite bucketType fileName obj, .rowUpdate "communities" entityId]⟩
    else if bucketType = "businesses" then
      match env.businessesUpdateError with
      | some msg =>
          ⟨⟨500, .errorMsg msg⟩, db1,
            [.storageWrite bucketType fileName obj, .rowUpdate "businesses" entityId]⟩
      | none =>
          ⟨⟨200, .success publicUrl⟩,
            { db1 with businesses := fun id =>
                if id = entityId then
                  (db1.businesses id).map (updateBusinessRow updateField publicUrl env.now)
                else db1.businesses id },
            [.storageWrite bucketType fileName obj, .rowUpdate "businesses" entityId]⟩
    else
      ⟨⟨200, .success publicUrl⟩, db1, [.storageWrite bucketType fileName obj]⟩

/-- Lines 52-105 of the source: bucket, size and type validation and
the ownership section (two conditional branches with no else). -/
def handleValidated (env : Env) (db : DB) (userId : String) (fv : FormValue)
    (bucketType entityId imageType : String) : HandlerResult :=
  if !(validBuckets.contains bucketType) then
    ⟨⟨400, .errorMsg invalidBucketMsg⟩, db, []⟩
  else
    let file := fv.asFile
    if file.size > 5 * 1024 * 1024 then
      ⟨⟨400, .errorMsg fileSizeMsg⟩, db, []⟩
    else if !(allowedTypes.contains file.type) then
      ⟨⟨400, .errorMsg fileTypeMsg⟩, db, []⟩
    else if bucketType = "communities" then
      match db.communities entityId with
      | none => ⟨⟨403, .errorMsg notAuthCommunityMsg⟩, db, []⟩
      | some community =>
          if community.created_by ≠ userId then
            ⟨⟨403, .errorMsg notAuthCommunityMsg⟩, db, []⟩
          else doUpload env db file bucketType entityId imageType
    else if bucketType = "businesses" then
      match db.businesses entityId with
      | none => ⟨⟨403, .errorMsg notAuthBusinessMsg⟩, db, []⟩
      | some business =>
          if business.owner_id ≠ userId then
            ⟨⟨403, .errorMsg notAuthBusinessMsg⟩, db, []⟩
          else doUpload env db file bucketType entityId imageType
    else doUpload env db file bucketType entityId imageType

/-- The full request handler (the `serve` callback). Preflight answer,
session presence and validation (`!sessionToken` and
`sessionError || !userId` are truthiness checks, so empty strings are
rejected like null), the required-fields truthiness check, then the
validated path. -/
def handleUpload (env : Env) (db : DB) (req : UploadRequest) : HandlerResult :=
  if req.method = "OPTIONS" then ⟨⟨200, .ok⟩, db, []⟩
  else
    match req.sessionToken with
    | none => ⟨⟨401, .errorMsg noSessionMsg⟩, db, []⟩
    | some sessionToken =>
      if sessionToken = "" then ⟨⟨401, .errorMsg noSessionMsg⟩, db, []⟩
      else
        match env.validateSession sessionToken with
        | none => ⟨⟨401, .errorMsg invalidSessionMsg⟩, db, []⟩
        | some userId =>
          if userId = "" then ⟨⟨401, .errorMsg invalidSessionMsg⟩, db, []⟩
          else if !formTruthy req.file || !strTruthy req.bucketType
              || !strTruthy req.entityId || !strTruthy req.imageType then
            ⟨⟨400, .errorMsg missingFieldsMsg⟩, db, []⟩
          else
            match req.file, req.bucketType, req.entityId, req.imageType with
            | some fv, some bucketType, some entityId, some imageType =>
                handleValidated env db userId fv bucketType entityId imageType
            | _, _, _, _ => ⟨⟨400, .errorMsg missingFieldsMsg⟩, db, []⟩

end UploadImage

namespace UploadImage

/-- Concrete environment used by witnesses: one valid token `tok`
resolving to user `u1`, deterministic public URLs, no injected
faults. -/
def envW : Env := {
  validateSession := fun t => if t = "tok" then some "u1" else none
  publicUrl := fun b p => "https://x/" ++ b ++ "/" ++ p
  now := "2026-01-01T00:00:00Z"
  uploadError := none
  communitiesUpdateError := none
  businessesUpdateError := none }

/-- Concrete database used by witnesses: community `C1` owned by `u1`,
business `B1` owned by `u2`, empty object store. -/
def dbW : DB := {
  communities := fun id => if id = "C1" then some ⟨"u1", none, none, "t0"⟩ else none
  businesses := fun id => if id = "B1" then some ⟨"u2", none, none, "t0"⟩ else none
  storage := fun _ _ => none }

/-- Concrete well-formed request used by witnesses: a 100-byte PNG
named `photo` (no extension) for community `C1` as cover image. -/
def reqW : UploadRequest := {
  method := "POST"
  sessionToken := some "tok"
  file := some (.file ⟨"photo", 100, "image/png", [1, 2]⟩)
  bucketType := some "communities"
  entityId := some "C1"
  imageType := some "cover" }

/-- C5: a request without the `x-session-token` header is answered
with a 401 and the no-session error, before any other validation:
every other field is universally quantified and no state is read or
written, so the outcome is independent of them. The preflight
(`OPTIONS`) answer is the one path ahead of the session check. -/
theorem missing_token_401 (env : Env) (db : DB) (req : UploadRequest)
    (hm : req.method ≠ "OPTIONS") (ht : req.sessionToken = none) :
    handleUpload env db req = ⟨⟨401, .errorMsg noSessionMsg⟩, db, []⟩ := by
  simp [handleUpload, hm, ht]

theorem missing_token_401_witness :
    handleUpload envW dbW { reqW with sessionToken := none } =
      ⟨⟨401, .errorMsg noSessionMsg⟩, dbW, []⟩ :=
  missing_token_401 envW dbW { reqW with sessionToken := none }
    (by decide) rfl

end UploadImage

namespace UploadImage

/-- C9: because presence of a form field is tested by JavaScript
truthiness (`!file || !bucketType || !entityId || !imageType`), a
field supplied as the empty string is rejected exactly like an absent
field: for each of the four fields, both the empty-string variant and
the absent variant of an otherwise arbitrary request produce the same
400 missing-required-fields response and leave the state untouched. -/
theorem empty_field_like_absent (env : Env) (db : DB) (req : UploadRequest)
    (tok u : String)
    (hm : req.method ≠ "OPTIONS") (ht : req.sessionToken = some tok)
    (htne : tok ≠ "") (hv : env.validateSession tok = some u) (hune : u ≠ "") :
    handleUpload env db { req with file := some (.str "") } =
      ⟨⟨400, .errorMsg missingFieldsMsg⟩, db, []⟩ ∧
    handleUpload env db { req with file := none } =
      ⟨⟨400, .errorMsg missingFieldsMsg⟩, db, []⟩ ∧
    handleUpload env db { req with bucketType := some "" } =
      ⟨⟨400, .errorMsg missingFieldsMsg⟩, db, []⟩ ∧
    handleUpload env db { req with bucketType := none } =
      ⟨⟨400, .errorMsg missingFieldsMsg⟩, db, []⟩ ∧
    handleUpload env db { req with entityId := some "" } =
      ⟨⟨400, .errorMsg missingFieldsMsg⟩, db, []⟩ ∧
    handleUpload env db { req with entityId := none } =
      ⟨⟨400, .errorMsg missingFieldsMsg⟩, db, []⟩ ∧
    handleUpload env db { req with imageType := some "" } =
      ⟨⟨400, .errorMsg missingFieldsMsg⟩, db, []⟩ ∧
    handleUpload env db { req with imageType := none } =
      ⟨⟨400, .errorMsg missingFieldsMsg⟩, db, []⟩ := by
  refine ⟨?_, ?_, ?_, ?_, ?_, ?_, ?_, ?_⟩ <;>
    simp [handleUpload, hm, ht, htne, hv, hune, formTruthy, strTruthy]

theorem empty_field_like_absent_witness :
    handleUpload envW dbW { reqW with file := some (.str "") } =
      ⟨⟨400, .errorMsg missingFieldsMsg⟩, dbW, []⟩ ∧
    handleUpload envW dbW { reqW with file := none } =
      ⟨⟨400, .errorMsg missingFieldsMsg⟩, dbW, []⟩ :=
  ⟨(empty_field_like_absent envW dbW reqW "tok" "u1"
      (by decide) rfl (by decide) rfl (by decide)).1,
   (empty_field_like_absent envW dbW reqW "tok" "u1"
      (by decide) rfl (by decide) rfl (by decide)).2.1⟩

end UploadImage

namespace UploadImage

/-- A truthy optional form value is present. -/
lemma formTruthy_some {o : Option FormValue} (h : formTruthy o = true) :
    ∃ fv, o = some fv := by
  cases o with
  | none => simp [formTruthy] at h
  | some fv => exact ⟨fv, rfl⟩

/-- A truthy optional string is present and non-empty. -/
lemma strTruthy_some {o : Option String} (h : strTruthy o = true) :
    ∃ s, o = some s ∧ s ≠ "" := by
  cases o with
  | none => simp [strTruthy] at h
  | some s =>
    refine ⟨s, rfl, ?_⟩
    simpa [strTruthy] using h

/-- C8: with a present session resolving to a user, any request whose
`bucket_type` lies outside the closed set of valid buckets is answered
with a 400 and one of the two validation messages (the
missing-required-fields message when some field is additionally
falsy, the invalid-bucket message otherwise), with no state change. -/
theorem invalid_bucket_400 (env : Env) (db : DB) (req : UploadRequest)
    (bt tok u : String)
    (hm : req.method ≠ "OPTIONS") (ht : req.sessionToken = some tok)
    (htne : tok ≠ "") (hv : env.validateSession tok = some u) (hune : u ≠ "")
    (hbt : req.bucketType = some bt) (hnb : validBuckets.contains bt = false) :
    (handleUpload env db req).resp.status = 400 ∧
    ((handleUpload env db req).resp.body = .errorMsg missingFieldsMsg ∨
      (handleUpload env db req).resp.body = .errorMsg invalidBucketMsg) ∧
    (handleUpload env db req).db = db ∧
    (handleUpload env db req).events = [] := by
  by_cases hc : (!formTruthy req.file || !strTruthy req.bucketType
      || !strTruthy req.entityId || !strTruthy req.imageType) = true
  · simp [handleUpload, hm, ht, htne, hv, hune, hc]
  · have hc' := hc
    simp only [Bool.or_eq_true, Bool.not_eq_true', not_or, Bool.not_eq_false] at hc'
    obtain ⟨⟨⟨h1, h2⟩, h3⟩, h4⟩ := hc'
    obtain ⟨fv, hf⟩ := formTruthy_some h1
    obtain ⟨eid, he, _⟩ := strTruthy_some h3
    obtain ⟨it, hi, _⟩ := strTruthy_some h4
    have hnb' : bt ∉ validBuckets := by simpa using hnb
    rw [hf] at h1
    rw [hbt] at h2
    rw [he] at h3
    rw [hi] at h4
    simp [handleUpload, handleValidated, hm, ht, htne, hv, hune,
      hf, hbt, he, hi, h1, h2, h3, h4, hnb']

theorem invalid_bucket_400_witness :
    (handleUpload envW dbW { reqW with bucketType := some "avatars" }).resp.status = 400 ∧
    ((handleUpload envW dbW { reqW with bucketType := some "avatars" }).resp.body =
        .errorMsg missingFieldsMsg ∨
      (handleUpload envW dbW { reqW with bucketType := some "avatars" }).resp.body =
        .errorMsg invalidBucketMsg) ∧
    (handleUpload envW dbW { reqW with bucketType := some "avatars" }).db = dbW ∧
    (handleUpload envW dbW { reqW with bucketType := some "avatars" }).events = [] :=
  invalid_bucket_400 envW dbW { reqW with bucketType := some "avatars" }
    "avatars" "tok" "u1" (by decide) rfl (by decide) rfl (by decide) rfl (by decide)

end UploadImage


namespace UploadImage

/-- The upload-and-update tail of the handler only answers 500 or 200. -/
lemma doUpload_status (env : Env) (db : DB) (f : FileData) (bt eid it : String) :
    (doUpload env db f bt eid it).resp.status = 500 ∨
    (doUpload env db f bt eid it).resp.status = 200 := by
  unfold doUpload
  repeat' split
  all_goals first | (left; rfl) | (right; rfl)

/-- When the storage write fails, the tail returns a 500 with the
upload error message, leaves the database untouched, and issues only
the (failed) storage write call. -/
lemma doUpload_uploadError (env : Env) (db : DB) (f : FileData) (bt eid it msg : String)
    (h : env.uploadError = some msg) :
    doUpload env db f bt eid it =
      ⟨⟨500, .errorMsg msg⟩, db,
        [.storageWrite bt (filePathOf eid it f.name) ⟨f.content, f.type⟩]⟩ := by
  unfold doUpload
  rw [h]

/-- Every storage write issued by the tail targets the given bucket at
the derived path with the file bytes and declared content type. -/
lemma doUpload_storageWrite (env : Env) (db : DB) (f : FileData) (bt eid it b p : String)
    (o : StoredObject)
    (h : Event.storageWrite b p o ∈ (doUpload env db f bt eid it).events) :
    b = bt ∧ p = filePathOf eid it f.name ∧ o = ⟨f.content, f.type⟩ := by
  unfold doUpload at h
  repeat' split at h
  all_goals simp_all

/-- Case analysis of the full handler: it answers with one of the four
fixed pre-validation responses (leaving the state untouched), or it
reaches the validated path with all four fields present and the
session resolved. -/
lemma handleUpload_cases (env : Env) (db : DB) (req : UploadRequest) :
    handleUpload env db req = ⟨⟨200, .ok⟩, db, []⟩ ∨
    handleUpload env db req = ⟨⟨401, .errorMsg noSessionMsg⟩, db, []⟩ ∨
    handleUpload env db req = ⟨⟨401, .errorMsg invalidSessionMsg⟩, db, []⟩ ∨
    handleUpload env db req = ⟨⟨400, .errorMsg missingFieldsMsg⟩, db, []⟩ ∨
    (∃ tok u fv bt eid it, req.sessionToken = some tok ∧
      env.validateSession tok = some u ∧ req.file = some fv ∧
      req.bucketType = some bt ∧ req.entityId = some eid ∧ req.imageType = some it ∧
      handleUpload env db req = handleValidated env db u fv bt eid it) := by
  unfold handleUpload
  repeat' split
  all_goals simp_all

end UploadImage

namespace UploadImage

/-- Case analysis of the validated path: one of the five fixed
rejections (state untouched), or the upload tail, reached only with
the ownership check of the matching bucket passed; the fall-through
that would skip ownership is unreachable because the bucket was
already checked against the closed set. -/
lemma handleValidated_cases (env : Env) (db : DB) (u : String) (fv : FormValue)
    (bt eid it : String) :
    handleValidated env db u fv bt eid it = ⟨⟨400, .errorMsg invalidBucketMsg⟩, db, []⟩ ∨
    handleValidated env db u fv bt eid it = ⟨⟨400, .errorMsg fileSizeMsg⟩, db, []⟩ ∨
    handleValidated env db u fv bt eid it = ⟨⟨400, .errorMsg fileTypeMsg⟩, db, []⟩ ∨
    handleValidated env db u fv bt eid it = ⟨⟨403, .errorMsg notAuthCommunityMsg⟩, db, []⟩ ∨
    handleValidated env db u fv bt eid it = ⟨⟨403, .errorMsg notAuthBusinessMsg⟩, db, []⟩ ∨
    (((bt = "communities" ∧ ∃ row, db.communities eid = some row ∧ row.created_by = u) ∨
        (bt = "businesses" ∧ ∃ row, db.businesses eid = some row ∧ row.owner_id = u)) ∧
      handleValidated env db u fv bt eid it = doUpload env db fv.asFile bt eid it) := by
  unfold handleValidated
  repeat' split
  all_goals try simp_all [validBuckets]
  all_goals repeat' split
  all_goals simp_all [validBuckets]

/-- C3: every rejected request (status 400, 401 or 403, covering the
missing-field, bad-bucket, oversize, disallowed-type, and
missing-or-not-owned-entity checks) leaves the database exactly as it
was and issues no remote write call at all. -/
theorem rejection_no_state_change (env : Env) (db : DB) (req : UploadRequest) :
    ((handleUpload env db req).resp.status = 400 ∨
      (handleUpload env db req).resp.status = 401 ∨
      (handleUpload env db req).resp.status = 403) →
    (handleUpload env db req).db = db ∧ (handleUpload env db req).events = [] := by
  intro h
  rcases handleUpload_cases env db req with hc | hc | hc | hc |
    ⟨tok, u, fv, bt, eid, it, _, _, _, _, _, _, hc⟩
  · rw [hc] at h; simp at h
  · rw [hc]; exact ⟨rfl, rfl⟩
  · rw [hc]; exact ⟨rfl, rfl⟩
  · rw [hc]; exact ⟨rfl, rfl⟩
  · rcases handleValidated_cases env db u fv bt eid it with
      hv | hv | hv | hv | hv | ⟨_, hv⟩ <;> rw [hc, hv] at h ⊢
    · exact ⟨rfl, rfl⟩
    · exact ⟨rfl, rfl⟩
    · exact ⟨rfl, rfl⟩
    · exact ⟨rfl, rfl⟩
    · exact ⟨rfl, rfl⟩
    · rcases doUpload_status env db fv.asFile bt eid it with hs | hs <;> simp [hs] at h

theorem rejection_no_state_change_witness :
    ((handleUpload envW dbW { reqW with entityId := some "C9" }).resp.status = 400 ∨
      (handleUpload envW dbW { reqW with entityId := some "C9" }).resp.status = 401 ∨
      (handleUpload envW dbW { reqW with entityId := some "C9" }).resp.status = 403) ∧
    (handleUpload envW dbW { reqW with entityId := some "C9" }).db = dbW ∧
    (handleUpload envW dbW { reqW with entityId := some "C9" }).events = [] :=
  ⟨Or.inr (Or.inr rfl),
    rejection_no_state_change envW dbW { reqW with entityId := some "C9" }
      (Or.inr (Or.inr rfl))⟩

/-- C4: when the storage write fails, the whole database (in
particular the image column of the target entity) keeps its prior
value, no row update call is ever issued, and any invocation that did
issue the storage write is answered with a 500 carrying the upload
error message. -/
theorem upload_failure_no_row_update (env : Env) (db : DB) (req : UploadRequest)
    (msg : String) (hup : env.uploadError = some msg) :
    (handleUpload env db req).db = db ∧
    (∀ t i, Event.rowUpdate t i ∉ (handleUpload env db req).events) ∧
    (∀ b p o, Event.storageWrite b p o ∈ (handleUpload env db req).events →
      (handleUpload env db req).resp = ⟨500, .errorMsg msg⟩) := by
  rcases handleUpload_cases env db req with hc | hc | hc | hc |
    ⟨tok, u, fv, bt, eid, it, _, _, _, _, _, _, hc⟩
  · rw [hc]; simp
  · rw [hc]; simp
  · rw [hc]; simp
  · rw [hc]; simp
  · rcases handleValidated_cases env db u fv bt eid it with
      hv | hv | hv | hv | hv | ⟨_, hv⟩ <;> rw [hc, hv]
    · simp
    · simp
    · simp
    · simp
    · simp
    · rw [doUpload_uploadError env db fv.asFile bt eid it msg hup]; simp

theorem upload_failure_no_row_update_witness :
    (handleUpload { envW with uploadError := some "boom" } dbW reqW).db = dbW ∧
    (∀ t i, Event.rowUpdate t i ∉
      (handleUpload { envW with uploadError := some "boom" } dbW reqW).events) ∧
    (∀ b p o, Event.storageWrite b p o ∈
        (handleUpload { envW with uploadError := some "boom" } dbW reqW).events →
      (handleUpload { envW with uploadError := some "boom" } dbW reqW).resp =
        ⟨500, .errorMsg "boom"⟩) :=
  upload_failure_no_row_update { envW with uploadError := some "boom" } dbW reqW
    "boom" rfl

end UploadImage

namespace UploadImage

/-- C10: an invocation issues a storage write only after the session
resolved, all four fields were present, and the ownership check of the
bucket named by `bucket_type` succeeded on an existing entity; the
ownership section's missing else-branch is unreachable because
`bucket_type` was already validated against the closed set, so no
write ever skips ownership verification. -/
theorem storage_write_owner_checked (env : Env) (db : DB) (req : UploadRequest)
    (b p : String) (o : StoredObject)
    (hw : Event.storageWrite b p o ∈ (handleUpload env db req).events) :
    ∃ tok u fv bt eid it, req.sessionToken = some tok ∧
      env.validateSession tok = some u ∧ req.file = some fv ∧
      req.bucketType = some bt ∧ req.entityId = some eid ∧ req.imageType = some it ∧
      b = bt ∧
      ((bt = "communities" ∧ ∃ row, db.communities eid = some row ∧ row.created_by = u) ∨
        (bt = "businesses" ∧ ∃ row, db.businesses eid = some row ∧ row.owner_id = u)) := by
  rcases handleUpload_cases env db req with hc | hc | hc | hc |
    ⟨tok, u, fv, bt, eid, it, h1, h2, h3, h4, h5, h6, hc⟩
  · rw [hc] at hw; simp at hw
  · rw [hc] at hw; simp at hw
  · rw [hc] at hw; simp at hw
  · rw [hc] at hw; simp at hw
  · rcases handleValidated_cases env db u fv bt eid it with
      hv | hv | hv | hv | hv | ⟨hown, hv⟩ <;> rw [hc, hv] at hw
    · simp at hw
    · simp at hw
    · simp at hw
    · simp at hw
    · simp at hw
    · obtain ⟨hb, _, _⟩ := doUpload_storageWrite env db fv.asFile bt eid it b p o hw
      exact ⟨tok, u, fv, bt, eid, it, h1, h2, h3, h4, h5, h6, hb, hown⟩

theorem storage_write_owner_checked_witness :
    ∃ tok u fv bt eid it, reqW.sessionToken = some tok ∧
      envW.validateSession tok = some u ∧ reqW.file = some fv ∧
      reqW.bucketType = some bt ∧ reqW.entityId = some eid ∧ reqW.imageType = some it ∧
      "communities" = bt ∧
      ((bt = "communities" ∧
          ∃ row, dbW.communities eid = some row ∧ row.created_by = u) ∨
        (bt = "businesses" ∧
          ∃ row, dbW.businesses eid = some row ∧ row.owner_id = u)) :=
  storage_write_owner_checked envW dbW reqW "communities" "C1/cover.photo"
    ⟨[1, 2], "image/png"⟩ (by decide)

end UploadImage

namespace UploadImage

/-- Modelled from the amended specification wording: the storage path
is `{entity_id}/{image_kind}.{extension}` where `extension` is the
last dot-separated segment of the original filename, and `jpg` exactly
when that segment is empty (empty filename, or filename ending in a
dot); a dotless filename contributes the whole filename. -/
def specStoragePath (entityId imageKind name : String) : String :=
  let seg := (splitDot name.data).getLastD []
  let extension : String := if seg = [] then "jpg" else ⟨seg⟩
  entityId ++ "/" ++ imageKind ++ "." ++ extension

/-- The path built by the handler agrees with the amended formula. -/
lemma filePathOf_eq_spec (e i n : String) : filePathOf e i n = specStoragePath e i n := by
  unfold filePathOf specStoragePath fileExt
  split <;> simp_all

/-- Appending a dot-jpg suffix yields a string that ends in it. -/
lemma strEndsWith_jpg (s : String) : strEndsWith (s ++ "." ++ "jpg") ".jpg" = true := by
  unfold strEndsWith
  have h : (s ++ "." ++ "jpg").data = s.data ++ ('.' :: ['j', 'p', 'g']) := by simp
  have h2 : (".jpg" : String).data = '.' :: ['j', 'p', 'g'] := rfl
  rw [h, h2]
  simp [List.isSuffixOf]

/-- Concrete request whose filename ends in a dot, so the extension
default applies. -/
def reqJpg : UploadRequest :=
  { reqW with file := some (.file ⟨"pic.", 50, "image/png", [3]⟩) }

/-- C1 (counterexample): a fully accepted upload whose filename
`photo` contains no dot, hence no extension, is stored at the path
`C1/cover.photo`, which does not end in `.jpg`: the whole dotless
filename is used as the extension because `split(".").pop()` returns
the whole name, which is truthy, so the `jpg` default never applies. -/
theorem storage_path_noext_counterexample :
    (handleUpload envW dbW reqW).resp.status = 200 ∧
    reqW.file = some (.file ⟨"photo", 100, "image/png", [1, 2]⟩) ∧
    ('.' ∉ "photo".data) ∧
    (handleUpload envW dbW reqW).events =
      [.storageWrite "communities" "C1/cover.photo" ⟨[1, 2], "image/png"⟩,
        .rowUpdate "communities" "C1"] ∧
    strEndsWith "C1/cover.photo" ".jpg" = false :=
  ⟨rfl, rfl, by decide, by decide, by decide⟩

/-- C1 (amended): every storage path written by the handler is
`{entity_id}/{image_kind}.{extension}` where `extension` is the last
dot-separated segment of the original filename, defaulting to `jpg`
only when that segment is empty (empty filename or filename ending in
a dot) — a dotless filename contributes the whole filename — and in
the default case the path does end in `.jpg`. -/
theorem storage_path_amended (env : Env) (db : DB) (req : UploadRequest)
    (fv : FormValue) (eid it b p : String) (o : StoredObject)
    (hf : req.file = some fv) (heid : req.entityId = some eid)
    (hit : req.imageType = some it)
    (hw : Event.storageWrite b p o ∈ (handleUpload env db req).events) :
    p = specStoragePath eid it fv.asFile.name ∧
    ((splitDot fv.asFile.name.data).getLastD [] = [] →
      strEndsWith p ".jpg" = true) := by
  rcases handleUpload_cases env db req with hc | hc | hc | hc |
    ⟨tok, u, fv2, bt2, eid2, it2, h1, h2, h3, h4, h5, h6, hc⟩
  · rw [hc] at hw; simp at hw
  · rw [hc] at hw; simp at hw
  · rw [hc] at hw; simp at hw
  · rw [hc] at hw; simp at hw
  · rw [hf] at h3; rw [heid] at h5; rw [hit] at h6
    injection h3 with h3; injection h5 with h5; injection h6 with h6
    subst h3; subst h5; subst h6
    rcases handleValidated_cases env db u fv bt2 eid it with
      hv | hv | hv | hv | hv | ⟨_, hv⟩ <;> rw [hc, hv] at hw
    · simp at hw
    · simp at hw
    · simp at hw
    · simp at hw
    · simp at hw
    · obtain ⟨_, hp, _⟩ := doUpload_storageWrite env db fv.asFile bt2 eid it b p o hw
      constructor
      · rw [hp, filePathOf_eq_spec]
      · intro hseg
        rw [hp]
        unfold filePathOf fileExt
        rw [hseg]
        exact strEndsWith_jpg _

theorem storage_path_amended_witness :
    "C1/cover.jpg" = specStoragePath "C1" "cover" "pic." ∧
    ((splitDot "pic.".data).getLastD [] = [] →
      strEndsWith "C1/cover.jpg" ".jpg" = true) :=
  storage_path_amended envW dbW reqJpg (.file ⟨"pic.", 50, "image/png", [3]⟩)
    "C1" "cover" "communities" "C1/cover.jpg" ⟨[3], "image/png"⟩
    rfl rfl rfl (by decide)

end UploadImage

namespace UploadImage

/-- C2: with a valid session resolving to user `u` and an otherwise
well-formed request, a target entity that is missing and a target
entity owned by someone other than `u` produce the very same response:
a 403 whose body depends only on the bucket kind, never on whether the
entity exists, and the state is untouched. The denial hypothesis
covers both cases at once, so the proved response shape is identical
for them. -/
theorem auth_denied_uniform (env : Env) (db : DB) (req : UploadRequest)
    (tok u bt eid it : String) (f : FileData)
    (hm : req.method ≠ "OPTIONS")
    (ht : req.sessionToken = some tok) (htne : tok ≠ "")
    (hv : env.validateSession tok = some u) (hune : u ≠ "")
    (hf : req.file = some (.file f))
    (hbt : req.bucketType = some bt)
    (heid : req.entityId = some eid) (heidne : eid ≠ "")
    (hit : req.imageType = some it) (hitne : it ≠ "")
    (hsize : f.size ≤ 5 * 1024 * 1024)
    (htype : allowedTypes.contains f.type = true)
    (hden : (bt = "communities" ∧
        ∀ row, db.communities eid = some row → row.created_by ≠ u) ∨
      (bt = "businesses" ∧
        ∀ row, db.businesses eid = some row → row.owner_id ≠ u)) :
    handleUpload env db req =
      ⟨⟨403, .errorMsg (if bt = "communities" then notAuthCommunityMsg
          else notAuthBusinessMsg)⟩, db, []⟩ := by
  have hsize' : ¬ (5 * 1024 * 1024 < f.size) := by omega
  have htype' : f.type ∈ allowedTypes := by simpa using htype
  rcases hden with ⟨hb, hrow⟩ | ⟨hb, hrow⟩ <;> subst hb
  · cases hcr : db.communities eid with
    | none =>
        simp [handleUpload, handleValidated, FormValue.asFile, hm, ht, htne, hv,
          hune, hf, hbt, heid, hit, hitne, heidne, formTruthy, strTruthy,
          validBuckets, hsize', htype', hcr]
    | some row =>
        have hne := hrow row hcr
        simp [handleUpload, handleValidated, FormValue.asFile, hm, ht, htne, hv,
          hune, hf, hbt, heid, hit, hitne, heidne, formTruthy, strTruthy,
          validBuckets, hsize', htype', hcr, hne]
  · cases hcr : db.businesses eid with
    | none =>
        simp [handleUpload, handleValidated, FormValue.asFile, hm, ht, htne, hv,
          hune, hf, hbt, heid, hit, hitne, heidne, formTruthy, strTruthy,
          validBuckets, hsize', htype', hcr]
    | some row =>
        have hne := hrow row hcr
        simp [handleUpload, handleValidated, FormValue.asFile, hm, ht, htne, hv,
          hune, hf, hbt, heid, hit, hitne, heidne, formTruthy, strTruthy,
          validBuckets, hsize', htype', hcr, hne]

theorem auth_denied_uniform_witness :
    handleUpload envW dbW { reqW with entityId := some "C9" } =
      ⟨⟨403, .errorMsg notAuthCommunityMsg⟩, dbW, []⟩ :=
  auth_denied_uniform envW dbW { reqW with entityId := some "C9" }
    "tok" "u1" "communities" "C9" "cover" ⟨"photo", 100, "image/png", [1, 2]⟩
    (by decide) rfl (by decide) rfl (by decide) rfl rfl rfl (by decide) rfl
    (by decide) (by decide) (by decide)
    (Or.inl ⟨rfl, fun row h => nomatch h⟩)

end UploadImage

namespace UploadImage

/-- C7: once the session, required-fields and bucket checks have
passed, file validation rejects with the 400 size error exactly the
files larger than 5242880 bytes (whatever their content type),
rejects with the 400 type error exactly the size-valid files whose
declared content type is outside the four allowed MIME types, and a
file passing both checks is never answered with a 400. -/
theorem file_validation_exact (env : Env) (db : DB) (req : UploadRequest)
    (tok u bt eid it : String) (fv : FormValue)
    (hm : req.method ≠ "OPTIONS")
    (ht : req.sessionToken = some tok) (htne : tok ≠ "")
    (hv : env.validateSession tok = some u) (hune : u ≠ "")
    (hf : req.file = some fv) (hfT : formTruthy (some fv) = true)
    (hbt : req.bucketType = some bt)
    (heid : req.entityId = some eid) (heidne : eid ≠ "")
    (hit : req.imageType = some it) (hitne : it ≠ "")
    (hvb : validBuckets.contains bt = true) :
    (fv.asFile.size > 5242880 →
      handleUpload env db req = ⟨⟨400, .errorMsg fileSizeMsg⟩, db, []⟩) ∧
    (fv.asFile.size ≤ 5242880 → allowedTypes.contains fv.asFile.type = false →
      handleUpload env db req = ⟨⟨400, .errorMsg fileTypeMsg⟩, db, []⟩) ∧
    (fv.asFile.size ≤ 5242880 → allowedTypes.contains fv.asFile.type = true →
      (handleUpload env db req).resp.status ≠ 400) := by
  have hvb' : bt ∈ validBuckets := by simpa using hvb
  have hbt2 : bt = "communities" ∨ bt = "businesses" := by
    simpa [validBuckets] using hvb'
  refine ⟨?_, ?_, ?_⟩
  · intro hs
    rcases hbt2 with hb | hb <;> subst hb <;>
      simp [handleUpload, handleValidated, hm, ht, htne, hv, hune, hf, hfT,
        hbt, heid, hit, hitne, heidne, strTruthy, validBuckets, hs]
  · intro hs htf
    have hs' : ¬ (5 * 1024 * 1024 < fv.asFile.size) := by omega
    have ht' : fv.asFile.type ∉ allowedTypes := by simpa using htf
    rcases hbt2 with hb | hb <;> subst hb <;>
      simp [handleUpload, handleValidated, hm, ht, htne, hv, hune, hf, hfT,
        hbt, heid, hit, hitne, heidne, strTruthy, validBuckets, hs', ht']
  · intro hs htt
    have hs' : ¬ (5 * 1024 * 1024 < fv.asFile.size) := by omega
    have ht' : fv.asFile.type ∈ allowedTypes := by simpa using htt
    rcases hbt2 with hb | hb <;> subst hb
    · cases hcr : db.communities eid with
      | none =>
          simp [handleUpload, handleValidated, hm, ht, htne, hv, hune, hf, hfT,
            hbt, heid, hit, hitne, heidne, strTruthy, validBuckets, hs', ht', hcr]
      | some row =>
          by_cases hoq : row.created_by = u
          · rcases doUpload_status env db fv.asFile "communities" eid it with hd | hd <;>
              simp [handleUpload, handleValidated, hm, ht, htne, hv, hune, hf, hfT,
                hbt, heid, hit, hitne, heidne, strTruthy, validBuckets, hs', ht',
                hcr, hoq, hd]
          · simp [handleUpload, handleValidated, hm, ht, htne, hv, hune, hf, hfT,
              hbt, heid, hit, hitne, heidne, strTruthy, validBuckets, hs', ht',
              hcr, hoq]
    · cases hcr : db.businesses eid with
      | none =>
          simp [handleUpload, handleValidated, hm, ht, htne, hv, hune, hf, hfT,
            hbt, heid, hit, hitne, heidne, strTruthy, validBuckets, hs', ht', hcr]
      | some row =>
          by_cases hoq : row.owner_id = u
          · rcases doUpload_status env db fv.asFile "businesses" eid it with hd | hd <;>
              simp [handleUpload, handleValidated, hm, ht, htne, hv, hune, hf, hfT,
                hbt, heid, hit, hitne, heidne, strTruthy, validBuckets, hs', ht',
                hcr, hoq, hd]
          · simp [handleUpload, handleValidated, hm, ht, htne, hv, hune, hf, hfT,
              hbt, heid, hit, hitne, heidne, strTruthy, validBuckets, hs', ht',
              hcr, hoq]

theorem file_validation_exact_witness :
    (100 > 5242880 →
      handleUpload envW dbW reqW = ⟨⟨400, .errorMsg fileSizeMsg⟩, dbW, []⟩) ∧
    (100 ≤ 5242880 → allowedTypes.contains "image/png" = false →
      handleUpload envW dbW reqW = ⟨⟨400, .errorMsg fileTypeMsg⟩, dbW, []⟩) ∧
    (100 ≤ 5242880 → allowedTypes.contains "image/png" = true →
      (handleUpload envW dbW reqW).resp.status ≠ 400) :=
  file_validation_exact envW dbW reqW "tok" "u1" "communities" "C1" "cover"
    (.file ⟨"photo", 100, "image/png", [1, 2]⟩) (by decide) rfl (by decide) rfl
    (by decide) rfl (by decide) rfl rfl (by decide) rfl (by decide) (by decide)

end UploadImage

namespace UploadImage

/-- The row update never touches the community owner column. -/
lemma updateCommunityRow_created_by (uf url now : String) (r : CommunityRow) :
    (updateCommunityRow uf url now r).created_by = r.created_by := by
  unfold updateCommunityRow; split <;> rfl

/-- The row update never touches the business owner column. -/
lemma updateBusinessRow_owner_id (uf url now : String) (r : BusinessRow) :
    (updateBusinessRow uf url now r).owner_id = r.owner_id := by
  unfold updateBusinessRow; split <;> rfl

/-- Applying the same community row update twice is the same as
applying it once. -/
lemma updateCommunityRow_idem (uf url now : String) (r : CommunityRow) :
    updateCommunityRow uf url now (updateCommunityRow uf url now r) =
      updateCommunityRow uf url now r := by
  unfold updateCommunityRow; split <;> simp_all

/-- Applying the same business row update twice is the same as
applying it once. -/
lemma updateBusinessRow_idem (uf url now : String) (r : BusinessRow) :
    updateBusinessRow uf url now (updateBusinessRow uf url now r) =
      updateBusinessRow uf url now r := by
  unfold updateBusinessRow; split <;> simp_all

/-- C6: re-running a fully valid upload against the state produced by
the first run succeeds with the very same response, issues the same
write calls — in particular the same storage path, so the second write
overwrites the object at the same address — and changes nothing
further: the object store and both tables (hence the image column of
the target entity) are pointwise identical after either call. -/
theorem upload_idempotent (env : Env) (db : DB) (req : UploadRequest)
    (tok u bt eid it : String) (f : FileData)
    (hm : req.method ≠ "OPTIONS")
    (ht : req.sessionToken = some tok) (htne : tok ≠ "")
    (hv : env.validateSession tok = some u) (hune : u ≠ "")
    (hf : req.file = some (.file f))
    (hbt : req.bucketType = some bt)
    (heid : req.entityId = some eid) (heidne : eid ≠ "")
    (hit : req.imageType = some it) (hitne : it ≠ "")
    (hsize : f.size ≤ 5 * 1024 * 1024)
    (htype : allowedTypes.contains f.type = true)
    (hown : (bt = "communities" ∧
        ∃ row, db.communities eid = some row ∧ row.created_by = u) ∨
      (bt = "businesses" ∧
        ∃ row, db.businesses eid = some row ∧ row.owner_id = u))
    (hup : env.uploadError = none)
    (hcu : env.communitiesUpdateError = none)
    (hbu : env.businessesUpdateError = none) :
    (handleUpload env db req).resp.status = 200 ∧
    (handleUpload env (handleUpload env db req).db req).resp =
      (handleUpload env db req).resp ∧
    (handleUpload env (handleUpload env db req).db req).events =
      (handleUpload env db req).events ∧
    (∀ b p, (handleUpload env (handleUpload env db req).db req).db.storage b p =
      (handleUpload env db req).db.storage b p) ∧
    (∀ i, (handleUpload env (handleUpload env db req).db req).db.communities i =
      (handleUpload env db req).db.communities i) ∧
    (∀ i, (handleUpload env (handleUpload env db req).db req).db.businesses i =
      (handleUpload env db req).db.businesses i) := by
  have hsize' : ¬ (5 * 1024 * 1024 < f.size) := by omega
  have htype' : f.type ∈ allowedTypes := by simpa using htype
  rcases hown with ⟨hb, row, hrow, hoq⟩ | ⟨hb, row, hrow, hoq⟩ <;> subst hb
  · refine ⟨?_, ?_, ?_, ?_, ?_, ?_⟩
    · simp [handleUpload, handleValidated, doUpload, FormValue.asFile, hm, ht,
        htne, hv, hune, hf, hbt, heid, hit, hitne, heidne, strTruthy, formTruthy,
        validBuckets, hsize', htype', hrow, hoq, hup, hcu, hbu]
    · simp [handleUpload, handleValidated, doUpload, FormValue.asFile, hm, ht,
        htne, hv, hune, hf, hbt, heid, hit, hitne, heidne, strTruthy, formTruthy,
        validBuckets, hsize', htype', hrow, hoq, hup, hcu, hbu,
        updateCommunityRow_created_by]
    · simp [handleUpload, handleValidated, doUpload, FormValue.asFile, hm, ht,
        htne, hv, hune, hf, hbt, heid, hit, hitne, heidne, strTruthy, formTruthy,
        validBuckets, hsize', htype', hrow, hoq, hup, hcu, hbu,
        updateCommunityRow_created_by]
    · intro b p
      simp only [handleUpload, handleValidated, doUpload, FormValue.asFile, hm, ht,
        htne, hv, hune, hf, hbt, heid, hit, hitne, heidne, strTruthy, formTruthy,
        validBuckets, hsize', htype', hrow, hoq, hup, hcu, hbu,
        updateCommunityRow_created_by]
      by_cases hc : b = "communities" ∧ p = filePathOf eid it f.name <;>
        simp [handleUpload, handleValidated, doUpload, FormValue.asFile, hm, ht,
          htne, hv, hune, hf, hbt, heid, hit, hitne, heidne, strTruthy, formTruthy,
          validBuckets, hsize', htype', hrow, hoq, hup, hcu, hbu,
          updateCommunityRow_created_by, hc]
    · intro i
      by_cases hi : i = eid <;>
        simp [handleUpload, handleValidated, doUpload, FormValue.asFile, hm, ht,
          htne, hv, hune, hf, hbt, heid, hit, hitne, heidne, strTruthy, formTruthy,
          validBuckets, hsize', htype', hrow, hoq, hup, hcu, hbu,
          updateCommunityRow_created_by, updateCommunityRow_idem, hi]
    · intro i
      simp [handleUpload, handleValidated, doUpload, FormValue.asFile, hm, ht,
        htne, hv, hune, hf, hbt, heid, hit, hitne, heidne, strTruthy, formTruthy,
        validBuckets, hsize', htype', hrow, hoq, hup, hcu, hbu,
        updateCommunityRow_created_by]
  · refine ⟨?_, ?_, ?_, ?_, ?_, ?_⟩
    · simp [handleUpload, handleValidated, doUpload, FormValue.asFile, hm, ht,
        htne, hv, hune, hf, hbt, heid, hit, hitne, heidne, strTruthy, formTruthy,
        validBuckets, hsize', htype', hrow, hoq, hup, hcu, hbu]
    · simp [handleUpload, handleValidated, doUpload, FormValue.asFile, hm, ht,
        htne, hv, hune, hf, hbt, heid, hit, hitne, heidne, strTruthy, formTruthy,
        validBuckets, hsize', htype', hrow, hoq, hup, hcu, hbu,
        updateBusinessRow_owner_id]
    · simp [handleUpload, handleValidated, doUpload, FormValue.asFile, hm, ht,
        htne, hv, hune, hf, hbt, heid, hit, hitne, heidne, strTruthy, formTruthy,
        validBuckets, hsize', htype', hrow, hoq, hup, hcu, hbu,
        updateBusinessRow_owner_id]
    · intro b p
      simp only [handleUpload, handleValidated, doUpload, FormValue.asFile, hm, ht,
        htne, hv, hune, hf, hbt, heid, hit, hitne, heidne, strTruthy, formTruthy,
        validBuckets, hsize', htype', hrow, hoq, hup, hcu, hbu,
        updateBusinessRow_owner_id]
      by_cases hc : b = "businesses" ∧ p = filePathOf eid it f.name <;>
        simp [handleUpload, handleValidated, doUpload, FormValue.asFile, hm, ht,
          htne, hv, hune, hf, hbt, heid, hit, hitne, heidne, strTruthy, formTruthy,
          validBuckets, hsize', htype', hrow, hoq, hup, hcu, hbu,
          updateBusinessRow_owner_id, hc]
    · intro i
      simp [handleUpload, handleValidated, doUpload, FormValue.asFile, hm, ht,
        htne, hv, hune, hf, hbt, heid, hit, hitne, heidne, strTruthy, formTruthy,
        validBuckets, hsize', htype', hrow, hoq, hup, hcu, hbu,
        updateBusinessRow_owner_id]
    · intro i
      by_cases hi : i = eid <;>
        simp [handleUpload, handleValidated, doUpload, FormValue.asFile, hm, ht,
          htne, hv, hune, hf, hbt, heid, hit, hitne, heidne, strTruthy, formTruthy,
          validBuckets, hsize', htype', hrow, hoq, hup, hcu, hbu,
          updateBusinessRow_owner_id, updateBusinessRow_idem, hi]

end UploadImage

namespace UploadImage

theorem upload_idempotent_witness :
    (handleUpload envW dbW reqW).resp.status = 200 ∧
    (handleUpload envW (handleUpload envW dbW reqW).db reqW).resp =
      (handleUpload envW dbW reqW).resp ∧
    (handleUpload envW (handleUpload envW dbW reqW).db reqW).events =
      (handleUpload envW dbW reqW).events ∧
    (∀ b p, (handleUpload envW (handleUpload envW dbW reqW).db reqW).db.storage b p =
      (handleUpload envW dbW reqW).db.storage b p) ∧
    (∀ i, (handleUpload envW (handleUpload envW dbW reqW).db reqW).db.communities i =
      (handleUpload envW dbW reqW).db.communities i) ∧
    (∀ i, (handleUpload envW (handleUpload envW dbW reqW).db reqW).db.businesses i =
      (handleUpload envW dbW reqW).db.businesses i) :=
  upload_idempotent envW dbW reqW "tok" "u1" "communities" "C1" "cover"
    ⟨"photo", 100, "image/png", [1, 2]⟩ (by decide) rfl (by decide) rfl (by decide)
    rfl rfl rfl (by decide) rfl (by decide) (by decide) (by decide)
    (Or.inl ⟨rfl, ⟨"u1", none, none, "t0"⟩, by decide, rfl⟩) rfl rfl rfl

end UploadImage
